import Mathlib

/-!
Formal model of the NFS CSI driver controller (package `nfs`): the volume-id
codec, CreateVolume parameter parsing, capability validation and the
create/delete provisioning workflows.

Strings are modelled as `List Char`.  Go's `strings.Split(s, "/")` and
`strings.Join(elems, "/")` become `splitOnSlash` / `joinSlash`, and
`path/filepath.Join` becomes `filepathJoin`, including the lexical `Clean`
step Go performs.  Fallible Go functions returning a value-and-error pair
become `Except` / `Option` values; the mount / mkdir / remove side effects
of the workflows are recorded as an explicit event trace, with an
environment of booleans deciding whether each external operation succeeds.
-/

namespace CsiNfs

/-- Go `strings.Split(s, "/")`: splitting the empty string yields one empty
token, and every separator opens a new token. -/
def splitOnSlash : List Char → List (List Char)
  | [] => [[]]
  | c :: rest =>
    if c = '/' then [] :: splitOnSlash rest
    else
      match splitOnSlash rest with
      | [] => [[c]]
      | t :: ts => (c :: t) :: ts

/-- Go `strings.Join(elems, "/")`. -/
def joinSlash : List (List Char) → List Char
  | [] => []
  | [x] => x
  | x :: xs => x ++ '/' :: joinSlash xs

/-- Structure `nfsVolume`: the internal representation of a provisioned
volume. -/
structure NfsVolume where
  id : List Char
  server : List Char
  baseDir : List Char
  subDir : List Char
  deriving DecidableEq

/-- Constant `totalIDElements`: a CSI volume id has exactly three
`/`-separated elements, server, baseDir, subDir, in that order. -/
def totalIDElements : Nat := 3

/-- Function `getVolumeIdFromNfsVol`: joins the three elements with `/` in
the fixed order server, baseDir, subDir (the `id` field of the input is
ignored). -/
def getVolumeIdFromNfsVol (vol : NfsVolume) : List Char :=
  joinSlash [vol.server, vol.baseDir, vol.subDir]

/-- Function `getNfsVolFromId`: splits the id on `/`; the three-token
pattern match encodes the source's check that the token count equals
`totalIDElements` followed by the indexed reads, and any other token count
is an error (`none`). -/
def getNfsVolFromId (id : List Char) : Option NfsVolume :=
  match splitOnSlash id with
  | [server, baseDir, subDir] =>
    some { id := id, server := server, baseDir := baseDir, subDir := subDir }
  | _ => none

/-- Key `paramServer`: the recognized server-address parameter key. -/
def paramServer : List Char := "server".data

/-- Key `paramBaseDir`: the recognized base-directory parameter key. -/
def paramBaseDir : List Char := "base-dir".data

/-- Errors returned by `newNFSVolume`; CreateVolume wraps each of them into
an InvalidArgument status. -/
inductive VolError where
  | invalidParameter (k : List Char)
  | requiredParameter (p : List Char)
  deriving DecidableEq

/-- Go `strings.ToLower` (simple case mapping). -/
def goToLower (s : List Char) : List Char := s.map Char.toLower

/-- Parameter loop of `newNFSVolume`: iterate over the key/value pairs,
lower-casing each key and matching it against the two recognized keys; any
other key aborts with an invalid-parameter error.  The accumulator is the
pair (server, baseDir), both starting as the Go zero value (empty). -/
def parseParams : List (List Char × List Char) → List Char × List Char →
    Except VolError (List Char × List Char)
  | [], acc => .ok acc
  | (k, v) :: rest, (server, baseDir) =>
    if goToLower k = paramServer then parseParams rest (v, baseDir)
    else if goToLower k = paramBaseDir then parseParams rest (server, v)
    else .error (.invalidParameter k)

/-- Function `newNFSVolume`: parse the parameter map, require non-empty
server and baseDir, then build the volume with subDir equal to the request
name and its id computed by `getVolumeIdFromNfsVol` (the id field holds the
Go zero value while the id is computed, and `getVolumeIdFromNfsVol` ignores
it). -/
def newNFSVolume (name : List Char) (params : List (List Char × List Char)) :
    Except VolError NfsVolume :=
  match parseParams params ([], []) with
  | .error e => .error e
  | .ok (server, baseDir) =>
    if server = [] then .error (.requiredParameter paramServer)
    else if baseDir = [] then .error (.requiredParameter paramBaseDir)
    else
      let vol : NfsVolume :=
        { id := [], server := server, baseDir := baseDir, subDir := name }
      .ok { vol with id := getVolumeIdFromNfsVol vol }

/-- Access-mode enum of a capability (csi VolumeCapability AccessMode
Mode). -/
inductive AccessModeEnum where
  | unknown
  | singleNodeWriter
  | singleNodeReaderOnly
  | multiNodeReaderOnly
  | multiNodeSingleWriter
  | multiNodeMultiWriter
  deriving DecidableEq

/-- Wrapper for the access-mode message of a capability. -/
structure AccessMode where
  mode : AccessModeEnum
  deriving DecidableEq

/-- Access-type oneof of a capability: a mount descriptor (fsType plus
mount flags) or a block descriptor.  The Go getter GetMount returns nil
exactly when the access type is not a mount descriptor. -/
inductive AccessType where
  | mount (fsType : List Char) (mountFlags : List (List Char))
  | block
  deriving DecidableEq

/-- One requested volume capability; both proto submessages may be unset. -/
structure VolumeCapability where
  accessMode : Option AccessMode
  accessType : Option AccessType
  deriving DecidableEq

/-- Driver configuration relevant to the controller: the statically
configured supported access-mode set (field `cap` of `nfsDriver`). -/
structure NfsDriver where
  capSupported : AccessModeEnum → Bool

/-- Modes enabled by `NewNFSdriver`: all five concrete modes, not the
unknown zero value. -/
def defaultDriverCap : AccessModeEnum → Bool
  | .unknown => false
  | _ => true

/-- Controller server state: driver configuration and the working mount
directory for temporary mounts. -/
structure ControllerServer where
  driver : NfsDriver
  workingMountDir : List Char

/-- Errors produced by capability validation; CreateVolume wraps each of
them into an InvalidArgument status. -/
inductive CapError where
  | noCapabilities
  | nilCapability
  | accessModeNotSet
  | unsupportedAccessMode (m : AccessModeEnum)
  | accessTypeNotSet
  | nonMountAccessType
  deriving DecidableEq

/-- Function `validateVolumeCapability`: nil check, access-mode presence and
support check, access-type presence check, mount-type check.  The fsType
inspection in the source is commented out, so a mount descriptor is always
accepted. -/
def validateVolumeCapability (cs : ControllerServer)
    (c : Option VolumeCapability) : Except CapError Unit :=
  match c with
  | none => .error .nilCapability
  | some cap =>
    match cap.accessMode with
    | none => .error .accessModeNotSet
    | some am =>
      if cs.driver.capSupported am.mode = false then
        .error (.unsupportedAccessMode am.mode)
      else
        match cap.accessType with
        | none => .error .accessTypeNotSet
        | some ty =>
          match ty with
          | .mount _ _ => .ok ()
          | .block => .error .nonMountAccessType

/-- Loop body of `validateVolumeCapabilities`: validate each capability in
order, stopping at the first failure. -/
def validateEach (cs : ControllerServer) :
    List (Option VolumeCapability) → Except CapError Unit
  | [] => .ok ()
  | c :: rest =>
    match validateVolumeCapability cs c with
    | .error e => .error e
    | .ok _ => validateEach cs rest

/-- Function `validateVolumeCapabilities`: reject an empty list, then
validate every entry. -/
def validateVolumeCapabilities (cs : ControllerServer)
    (caps : List (Option VolumeCapability)) : Except CapError Unit :=
  if caps = [] then .error .noCapabilities
  else validateEach cs caps

/-- Spec-side description (section 4.2) of when a single capability
descriptor is rejected, stated from the spec's words independently of the
implementation, for comparison with `validateVolumeCapability`. -/
def specCapabilityInvalid (cs : ControllerServer)
    (c : Option VolumeCapability) : Prop :=
  c = none ∨
    ∃ cap, c = some cap ∧
      (cap.accessMode = none ∨
       (∃ am, cap.accessMode = some am ∧
          cs.driver.capSupported am.mode = false) ∨
       cap.accessType = none ∨
       (∃ ty, cap.accessType = some ty ∧
          ∀ fs fl, ty ≠ AccessType.mount fs fl))

/-- Test from Go `path.Clean` for a rooted (absolute) path. -/
def isRooted : List Char → Bool
  | '/' :: _ => true
  | _ => false

/-- One step of the element loop of Go `path.Clean`: skip empty and dot
elements; a dot-dot element pops the newest retained element unless there is
none (outside the root it is kept, at the root it is dropped) or the newest
element is itself a kept dot-dot; anything else is retained.  The
accumulator holds retained elements newest first. -/
def cleanStep (rooted : Bool) (acc : List (List Char)) (c : List Char) :
    List (List Char) :=
  if c = [] ∨ c = ['.'] then acc
  else if c = ['.', '.'] then
    match acc with
    | [] => if rooted then [] else [c]
    | top :: restAcc => if top = ['.', '.'] then c :: acc else restAcc
  else c :: acc

/-- Go `path.Clean` (unix rules): split, process elements, re-join, with
the empty result becoming a single dot. -/
def pathClean (p : List Char) : List Char :=
  if p = [] then ['.']
  else
    let cleaned := ((splitOnSlash p).foldl (cleanStep (isRooted p)) []).reverse
    let res := (if isRooted p then ['/'] else []) ++ joinSlash cleaned
    if res = [] then ['.'] else res

/-- Go `filepath.Join`: drop leading empty elements, join the rest with `/`
and clean; all elements empty gives the empty string. -/
def filepathJoin (elems : List (List Char)) : List Char :=
  match elems.dropWhile List.isEmpty with
  | [] => []
  | rest => pathClean (joinSlash rest)

/-- Function `getInternalMountPath`: working directory for a create/delete
request, keyed by the volume's subDir. -/
def getInternalMountPath (cs : ControllerServer) (vol : NfsVolume) :
    List Char :=
  filepathJoin [cs.workingMountDir, vol.subDir]

/-- Function `getInternalVolumePath`: the path (mount path plus subDir
again) at which the volume's directory is created or removed. -/
def getInternalVolumePath (cs : ControllerServer) (vol : NfsVolume) :
    List Char :=
  filepathJoin [getInternalMountPath cs vol, vol.subDir]

/-- Function `getVolumeSharePath`: user-visible share path of the volume on
the server. -/
def getVolumeSharePath (vol : NfsVolume) : List Char :=
  filepathJoin [['/'], vol.baseDir, vol.subDir]

/-- Volume message returned by CreateVolume: capacity, id, and the volume
context, whose two keys server and share are modelled as fields. -/
structure CsiVolume where
  capacityBytes : Int
  volumeId : List Char
  ctxServer : List Char
  ctxShare : List Char
  deriving DecidableEq

/-- Function `nfsVolToCSI`: build the response volume, echoing the
requested capacity. -/
def nfsVolToCSI (vol : NfsVolume) (reqBytes : Int) : CsiVolume :=
  { capacityBytes := reqBytes
    volumeId := vol.id
    ctxServer := vol.server
    ctxShare := getVolumeSharePath vol }

/-- Share path mounted by `internalMount`: Join of the slash-prefixed
baseDir. -/
def internalMountShare (vol : NfsVolume) : List Char :=
  filepathJoin [('/' :: vol.baseDir)]

/-- Status codes surfaced by the two workflow entry points. -/
inductive GrpcCode where
  | invalidArgument
  | internal
  deriving DecidableEq

/-- Side effects performed by the workflows, recorded as a trace: the
mount request issued by `internalMount` (target path, server, share), the
directory creation, the recursive removal, and the unmount issued by
`internalUnmount`. -/
inductive Event where
  | mountShare (targetPath server share : List Char)
  | mkdirAt (path : List Char)
  | removeAllAt (path : List Char)
  | unmountAt (targetPath : List Char)
  deriving DecidableEq

/-- Success or failure of the external operations a workflow performs, in
the order it attempts them (the result of the deferred unmount is only
logged, so it does not appear). -/
structure Env where
  mountOk : Bool
  mkdirOk : Bool
  removeOk : Bool

/-- Request message of CreateVolume, restricted to the fields the
controller reads. -/
structure CreateVolumeRequest where
  name : List Char
  volumeCapabilities : List (Option VolumeCapability)
  parameters : List (List Char × List Char)
  capacityRequiredBytes : Int

/-- Function `CreateVolume`: validate the name, the capabilities and the
parameters (each failure is InvalidArgument), then mount the base share,
create the subdirectory and unmount (mount and mkdir failures are
Internal; the deferred unmount always runs once the mount succeeded). -/
def CreateVolume (cs : ControllerServer) (req : CreateVolumeRequest)
    (env : Env) : Except GrpcCode CsiVolume × List Event :=
  if req.name = [] then (.error .invalidArgument, [])
  else
    match validateVolumeCapabilities cs req.volumeCapabilities with
    | .error _ => (.error .invalidArgument, [])
    | .ok _ =>
      match newNFSVolume req.name req.parameters with
      | .error _ => (.error .invalidArgument, [])
      | .ok vol =>
        let target := getInternalMountPath cs vol
        let mountEv := Event.mountShare target vol.server
          (internalMountShare vol)
        if env.mountOk = false then (.error .internal, [mountEv])
        else
          let mkdirEv := Event.mkdirAt (getInternalVolumePath cs vol)
          if env.mkdirOk = false then
            (.error .internal, [mountEv, mkdirEv, .unmountAt target])
          else
            (.ok (nfsVolToCSI vol req.capacityRequiredBytes),
             [mountEv, mkdirEv, .unmountAt target])

/-- Function `DeleteVolume`: an empty id is InvalidArgument; an id that
fails to decode is treated as an already-absent volume and succeeds with no
side effect; otherwise mount the base share, recursively remove the
subdirectory and unmount (mount and removal failures are Internal). -/
def DeleteVolume (cs : ControllerServer) (volumeId : List Char) (env : Env) :
    Except GrpcCode Unit × List Event :=
  if volumeId = [] then (.error .invalidArgument, [])
  else
    match getNfsVolFromId volumeId with
    | none => (.ok (), [])
    | some vol =>
      let target := getInternalMountPath cs vol
      let mountEv := Event.mountShare target vol.server
        (internalMountShare vol)
      if env.mountOk = false then (.error .internal, [mountEv])
      else
        let removeEv := Event.removeAllAt (getInternalVolumePath cs vol)
        if env.removeOk = false then
          (.error .internal, [mountEv, removeEv, .unmountAt target])
        else
          (.ok (), [mountEv, removeEv, .unmountAt target])

/-- Well-formed path segment: non-empty, separator-free, and not one of the
two special dot elements that `path.Clean` rewrites. -/
def plainSeg (c : List Char) : Prop :=
  c ≠ [] ∧ '/' ∉ c ∧ c ≠ ['.'] ∧ c ≠ ['.', '.']

instance (c : List Char) : Decidable (plainSeg c) := by
  unfold plainSeg; infer_instance

/-! ## Lemmas about the split/join codec -/

theorem splitOnSlash_ne_nil (s : List Char) : splitOnSlash s ≠ [] := by
  cases s with
  | nil => simp [splitOnSlash]
  | cons c rest =>
    simp only [splitOnSlash]
    split
    · simp
    · split <;> simp

theorem joinSlash_cons_cons (x y : List Char) (ys : List (List Char)) :
    joinSlash (x :: y :: ys) = x ++ '/' :: joinSlash (y :: ys) := rfl

/-- Joining the tokens of a split recovers the original string. -/
theorem joinSlash_splitOnSlash (s : List Char) :
    joinSlash (splitOnSlash s) = s := by
  induction s with
  | nil => simp [splitOnSlash, joinSlash]
  | cons c rest ih =>
    obtain ⟨t, ts, hts⟩ : ∃ t ts, splitOnSlash rest = t :: ts := by
      cases h : splitOnSlash rest with
      | nil => exact absurd h (splitOnSlash_ne_nil rest)
      | cons t ts => exact ⟨t, ts, rfl⟩
    rw [hts] at ih
    by_cases hc : c = '/'
    · subst hc
      simp only [splitOnSlash, if_pos rfl]
      rw [hts]
      simp [joinSlash_cons_cons, joinSlash, ih]
    · simp only [splitOnSlash, if_neg hc]
      rw [hts]
      cases ts with
      | nil => simpa [joinSlash] using ih
      | cons u us =>
        rw [joinSlash_cons_cons]
        rw [joinSlash_cons_cons] at ih
        simp [ih]

/-- Splitting a string that starts with a separator-free token `x` followed
by `/` peels off exactly `x`. -/
theorem splitOnSlash_append (x rest : List Char) (hx : '/' ∉ x) :
    splitOnSlash (x ++ '/' :: rest) = x :: splitOnSlash rest := by
  induction x with
  | nil => simp [splitOnSlash]
  | cons c x ih =>
    have hc : c ≠ '/' := by
      intro h; exact hx (h ▸ List.mem_cons_self c x)
    have hx' : '/' ∉ x := fun h => hx (List.mem_cons_of_mem c h)
    simp only [List.cons_append, splitOnSlash, if_neg hc]
    rw [show x.append ('/' :: rest) = x ++ '/' :: rest from rfl, ih hx']

/-- A separator-free string splits into a single token. -/
theorem splitOnSlash_no_slash (x : List Char) (hx : '/' ∉ x) :
    splitOnSlash x = [x] := by
  induction x with
  | nil => simp [splitOnSlash]
  | cons c x ih =>
    have hc : c ≠ '/' := by
      intro h; exact hx (h ▸ List.mem_cons_self c x)
    have hx' : '/' ∉ x := fun h => hx (List.mem_cons_of_mem c h)
    simp only [splitOnSlash, if_neg hc, ih hx']

/-- Splitting the join of separator-free tokens recovers the tokens. -/
theorem splitOnSlash_joinSlash (segs : List (List Char)) (h0 : segs ≠ [])
    (hs : ∀ c ∈ segs, '/' ∉ c) :
    splitOnSlash (joinSlash segs) = segs := by
  induction segs with
  | nil => exact absurd rfl h0
  | cons x xs ih =>
    cases xs with
    | nil =>
      simp only [joinSlash]
      exact splitOnSlash_no_slash x (hs x (List.mem_cons_self x []))
    | cons y ys =>
      rw [joinSlash_cons_cons,
          splitOnSlash_append x _ (hs x (List.mem_cons_self x (y :: ys))),
          ih (by simp) (fun c hc => hs c (List.mem_cons_of_mem x hc))]

/-- Inversion for a successful decode: the volume keeps the raw id and its
fields are the three tokens of the split. -/
theorem getNfsVolFromId_some (s : List Char) (vol : NfsVolume)
    (h : getNfsVolFromId s = some vol) :
    vol.id = s ∧ splitOnSlash s = [vol.server, vol.baseDir, vol.subDir] := by
  unfold getNfsVolFromId at h
  split at h
  · next a b c heq =>
      injection h with h'
      subst h'
      exact ⟨rfl, heq⟩
  · cases h

/-- Decode fails exactly on token counts other than `totalIDElements`. -/
theorem getNfsVolFromId_none_iff (id : List Char) :
    getNfsVolFromId id = none ↔
      (splitOnSlash id).length ≠ totalIDElements := by
  unfold getNfsVolFromId totalIDElements
  cases h : splitOnSlash id with
  | nil => simp
  | cons a l =>
    cases l with
    | nil => simp
    | cons b l' =>
      cases l' with
      | nil => simp
      | cons c l'' =>
        cases l'' with
        | nil => simp
        | cons d l''' => simp

/-! ## Claim C1 -/

/-- Claim C1: decoding the identifier produced by encoding a triple of
non-empty, separator-free segments recovers exactly the same server,
baseDir and subDir, and succeeds (no error). -/
theorem decode_encode_roundtrip (i s b d : List Char)
    (hs0 : s ≠ []) (hb0 : b ≠ []) (hd0 : d ≠ [])
    (hs : '/' ∉ s) (hb : '/' ∉ b) (hd : '/' ∉ d) :
    getNfsVolFromId (getVolumeIdFromNfsVol ⟨i, s, b, d⟩) =
      some ⟨getVolumeIdFromNfsVol ⟨i, s, b, d⟩, s, b, d⟩ := by
  have hid : getVolumeIdFromNfsVol ⟨i, s, b, d⟩
      = s ++ '/' :: (b ++ '/' :: d) := by
    simp [getVolumeIdFromNfsVol, joinSlash_cons_cons, joinSlash]
  rw [hid]
  unfold getNfsVolFromId
  rw [splitOnSlash_append s (b ++ '/' :: d) hs,
      splitOnSlash_append b d hb,
      splitOnSlash_no_slash d hd]

/-- Witness for C1 at a concrete triple. -/
theorem decode_encode_roundtrip_witness :
    getNfsVolFromId
        (getVolumeIdFromNfsVol ⟨[], "nfs1".data, "base".data, "vol1".data⟩) =
      some ⟨getVolumeIdFromNfsVol ⟨[], "nfs1".data, "base".data, "vol1".data⟩,
            "nfs1".data, "base".data, "vol1".data⟩ :=
  decode_encode_roundtrip [] "nfs1".data "base".data "vol1".data
    (by decide) (by decide) (by decide) (by decide) (by decide) (by decide)

/-! ## Claim C2 -/

/-- Counterexample to C2: the claim says an id containing an empty segment
(such as "a//b") must fail to decode, but `getNfsVolFromId` only counts
tokens, so "a//b" decodes successfully, with an empty baseDir. -/
theorem decode_accepts_empty_segment :
    getNfsVolFromId "a//b".data =
      some ⟨"a//b".data, "a".data, [], "b".data⟩ := by decide

/-- Claim C2 as amended: decoding fails exactly when splitting on `/` does
not yield exactly `totalIDElements` tokens, tokens being allowed to be
empty; in particular the empty string fails (it splits into one token), as
do ids with 1, 2 or 4-or-more tokens. -/
theorem decode_fails_iff_not_three_tokens (s : List Char) :
    getNfsVolFromId s = none ↔
      (splitOnSlash s).length ≠ totalIDElements :=
  getNfsVolFromId_none_iff s

/-! ## Claim C8 -/

/-- Claim C8: every volume the program constructs, whether from request
parameters by `newNFSVolume` or from an identifier by `getNfsVolFromId`,
has its id field equal to the join of server, baseDir and subDir in that
order; moreover re-encoding a decoded id gives back exactly the accepted
string. -/
theorem volume_id_invariant :
    (∀ (name : List Char) (params : List (List Char × List Char))
        (vol : NfsVolume),
        newNFSVolume name params = .ok vol →
          vol.id = getVolumeIdFromNfsVol vol) ∧
    (∀ (s : List Char) (vol : NfsVolume),
        getNfsVolFromId s = some vol →
          vol.id = getVolumeIdFromNfsVol vol ∧
            getVolumeIdFromNfsVol vol = s) := by
  constructor
  · intro name params vol h
    unfold newNFSVolume at h
    cases hp : parseParams params ([], []) with
    | error e => rw [hp] at h; cases h
    | ok acc =>
      obtain ⟨sv, bd⟩ := acc
      rw [hp] at h
      simp only at h
      by_cases hsv : sv = []
      · rw [if_pos hsv] at h; cases h
      · rw [if_neg hsv] at h
        by_cases hbd : bd = []
        · rw [if_pos hbd] at h; cases h
        · rw [if_neg hbd] at h
          injection h with h'
          subst h'
          rfl
  · intro s vol h
    obtain ⟨hids, hsplit⟩ := getNfsVolFromId_some s vol h
    have henc : getVolumeIdFromNfsVol vol = s := by
      unfold getVolumeIdFromNfsVol
      rw [← hsplit, joinSlash_splitOnSlash]
    exact ⟨hids.trans henc.symm, henc⟩

/-- Witness for C8, exercising both the constructor path and the decode
path at concrete inputs. -/
theorem volume_id_invariant_witness :
    ((⟨"a/b/c".data, "a".data, "b".data, "c".data⟩ : NfsVolume).id =
        getVolumeIdFromNfsVol ⟨"a/b/c".data, "a".data, "b".data, "c".data⟩) ∧
    getVolumeIdFromNfsVol ⟨"a/b/c".data, "a".data, "b".data, "c".data⟩ =
      "a/b/c".data :=
  ⟨volume_id_invariant.1 "c".data
      [(paramServer, "a".data), (paramBaseDir, "b".data)]
      ⟨"a/b/c".data, "a".data, "b".data, "c".data⟩ (by rfl),
   (volume_id_invariant.2 "a/b/c".data
      ⟨"a/b/c".data, "a".data, "b".data, "c".data⟩ (by decide)).2⟩

/-! ## Lemmas about parameter parsing -/

/-- An unrecognized key anywhere in the list makes the parameter loop
fail. -/
theorem parseParams_error_of_bad_key (params : List (List Char × List Char)) :
    ∀ (acc : List Char × List Char) (k v : List Char), (k, v) ∈ params →
      goToLower k ≠ paramServer → goToLower k ≠ paramBaseDir →
      ∃ e, parseParams params acc = .error e := by
  induction params with
  | nil => intro acc k v h; simp at h
  | cons kv rest ih =>
    intro acc k v hmem hks hkb
    obtain ⟨k0, v0⟩ := kv
    obtain ⟨sv, bd⟩ := acc
    rcases List.mem_cons.1 hmem with heq | hmem'
    · cases heq
      simp only [parseParams, if_neg hks, if_neg hkb]
      exact ⟨_, rfl⟩
    · by_cases h1 : goToLower k0 = paramServer
      · simp only [parseParams, if_pos h1]
        exact ih _ k v hmem' hks hkb
      · by_cases h2 : goToLower k0 = paramBaseDir
        · simp only [parseParams, if_neg h1, if_pos h2]
          exact ih _ k v hmem' hks hkb
        · simp only [parseParams, if_neg h1, if_neg h2]
          exact ⟨_, rfl⟩

/-- If no key lowers to the server key, the server accumulator is never
written: the loop either fails or ends with the original server value. -/
theorem parseParams_no_server_key (params : List (List Char × List Char)) :
    ∀ (sv bd : List Char),
      (∀ kv ∈ params, goToLower kv.1 ≠ paramServer) →
      (∃ e, parseParams params (sv, bd) = .error e) ∨
        (∃ bd2, parseParams params (sv, bd) = .ok (sv, bd2)) := by
  induction params with
  | nil => intro sv bd _; exact .inr ⟨bd, rfl⟩
  | cons kv rest ih =>
    intro sv bd h
    obtain ⟨k0, v0⟩ := kv
    have hk0 : goToLower k0 ≠ paramServer :=
      h (k0, v0) (List.mem_cons_self _ _)
    by_cases h2 : goToLower k0 = paramBaseDir
    · simp only [parseParams, if_neg hk0, if_pos h2]
      exact ih sv v0 (fun kv hm => h kv (List.mem_cons_of_mem _ hm))
    · simp only [parseParams, if_neg hk0, if_neg h2]
      exact .inl ⟨_, rfl⟩

/-- If no key lowers to the base-dir key, the baseDir accumulator is never
written: the loop either fails or ends with the original baseDir value. -/
theorem parseParams_no_baseDir_key (params : List (List Char × List Char)) :
    ∀ (sv bd : List Char),
      (∀ kv ∈ params, goToLower kv.1 ≠ paramBaseDir) →
      (∃ e, parseParams params (sv, bd) = .error e) ∨
        (∃ sv2, parseParams params (sv, bd) = .ok (sv2, bd)) := by
  induction params with
  | nil => intro sv bd _; exact .inr ⟨sv, rfl⟩
  | cons kv rest ih =>
    intro sv bd h
    obtain ⟨k0, v0⟩ := kv
    have hk0 : goToLower k0 ≠ paramBaseDir :=
      h (k0, v0) (List.mem_cons_self _ _)
    by_cases h1 : goToLower k0 = paramServer
    · simp only [parseParams, if_pos h1]
      exact ih v0 bd (fun kv hm => h kv (List.mem_cons_of_mem _ hm))
    · simp only [parseParams, if_neg h1, if_neg hk0]
      exact .inl ⟨_, rfl⟩

/-! ## Claim C5 -/

/-- Claim C5: parameter keys are matched case-insensitively against exactly
the two recognized keys; any other key makes `newNFSVolume` fail (and
CreateVolume reports such a failure as InvalidArgument, with no side
effect), and the absence of either required key also makes it fail. -/
theorem newNFSVolume_param_validation :
    (∀ (name k v : List Char) (params : List (List Char × List Char)),
        (k, v) ∈ params →
        goToLower k ≠ paramServer → goToLower k ≠ paramBaseDir →
        ∃ e, newNFSVolume name params = .error e) ∧
    (∀ (name : List Char) (params : List (List Char × List Char)),
        (∀ kv ∈ params, goToLower kv.1 ≠ paramServer) →
        ∃ e, newNFSVolume name params = .error e) ∧
    (∀ (name : List Char) (params : List (List Char × List Char)),
        (∀ kv ∈ params, goToLower kv.1 ≠ paramBaseDir) →
        ∃ e, newNFSVolume name params = .error e) ∧
    (∀ (cs : ControllerServer) (req : CreateVolumeRequest) (env : Env)
        (e : VolError),
        req.name ≠ [] →
        validateVolumeCapabilities cs req.volumeCapabilities = .ok () →
        newNFSVolume req.name req.parameters = .error e →
        CreateVolume cs req env = (.error .invalidArgument, [])) := by
  refine ⟨?_, ?_, ?_, ?_⟩
  · intro name k v params hmem hks hkb
    obtain ⟨e, he⟩ :=
      parseParams_error_of_bad_key params ([], []) k v hmem hks hkb
    exact ⟨e, by unfold newNFSVolume; rw [he]⟩
  · intro name params h
    rcases parseParams_no_server_key params [] [] h with ⟨e, he⟩ | ⟨bd2, hok⟩
    · exact ⟨e, by unfold newNFSVolume; rw [he]⟩
    · exact ⟨.requiredParameter paramServer,
        by unfold newNFSVolume; rw [hok]; simp⟩
  · intro name params h
    rcases parseParams_no_baseDir_key params [] [] h with ⟨e, he⟩ | ⟨sv2, hok⟩
    · exact ⟨e, by unfold newNFSVolume; rw [he]⟩
    · by_cases hsv : sv2 = []
      · exact ⟨.requiredParameter paramServer,
          by unfold newNFSVolume; rw [hok]; simp [hsv]⟩
      · exact ⟨.requiredParameter paramBaseDir,
          by unfold newNFSVolume; rw [hok]; simp [hsv]⟩
  · intro cs req env e hname hcaps hvol
    unfold CreateVolume
    rw [if_neg hname, hcaps, hvol]

/-- Witness for C5: an unrecognized key, a map missing the server key, a
map missing the base-dir key, and the InvalidArgument surfacing path, all
at concrete inputs. -/
theorem newNFSVolume_param_validation_witness :
    (∃ e, newNFSVolume "v".data [("foo".data, "bar".data)] = .error e) ∧
    (∃ e, newNFSVolume "v".data [(paramBaseDir, "b".data)] = .error e) ∧
    (∃ e, newNFSVolume "v".data [(paramServer, "s".data)] = .error e) ∧
    CreateVolume ⟨⟨defaultDriverCap⟩, "/wd".data⟩
        ⟨"v".data,
         [some ⟨some ⟨.multiNodeMultiWriter⟩, some (.mount [] [])⟩],
         [("foo".data, "bar".data)], 7⟩
        ⟨true, true, true⟩ =
      (.error .invalidArgument, []) :=
  ⟨newNFSVolume_param_validation.1 "v".data "foo".data "bar".data
      [("foo".data, "bar".data)] (by simp) (by decide) (by decide),
   newNFSVolume_param_validation.2.1 "v".data [(paramBaseDir, "b".data)]
      (by decide),
   newNFSVolume_param_validation.2.2.1 "v".data [(paramServer, "s".data)]
      (by decide),
   newNFSVolume_param_validation.2.2.2 ⟨⟨defaultDriverCap⟩, "/wd".data⟩
      ⟨"v".data,
       [some ⟨some ⟨.multiNodeMultiWriter⟩, some (.mount [] [])⟩],
       [("foo".data, "bar".data)], 7⟩
      ⟨true, true, true⟩ (.invalidParameter "foo".data)
      (by decide) (by rfl) (by rfl)⟩

/-! ## Claim C9 -/

/-- Claim C9: a recognized key that is present but maps to the empty string
is indistinguishable from an absent key: prepending such an entry leaves
`newNFSVolume` unchanged on every parameter list (the accumulator already
holds the empty Go zero value), and with the entry alone the call fails
with the required-parameter error, exactly as with no parameters at all. -/
theorem empty_param_value_like_missing :
    (∀ (name k : List Char) (params : List (List Char × List Char)),
        goToLower k = paramServer ∨ goToLower k = paramBaseDir →
        newNFSVolume name ((k, []) :: params) = newNFSVolume name params) ∧
    (∀ (name k : List Char),
        goToLower k = paramServer ∨ goToLower k = paramBaseDir →
        newNFSVolume name [(k, [])] = newNFSVolume name []) := by
  have hne : paramServer ≠ paramBaseDir := by decide
  have main : ∀ (name k : List Char) (params : List (List Char × List Char)),
      goToLower k = paramServer ∨ goToLower k = paramBaseDir →
      newNFSVolume name ((k, []) :: params) = newNFSVolume name params := by
    intro name k params hk
    unfold newNFSVolume
    rcases hk with hk | hk
    · simp only [parseParams, if_pos hk]
    · by_cases h1 : goToLower k = paramServer
      · simp only [parseParams, if_pos h1]
      · simp only [parseParams, if_neg h1, if_pos hk]
  exact ⟨main, fun name k hk => main name k [] hk⟩

/-- Witness for C9 at concrete inputs, including a mixed-case key. -/
theorem empty_param_value_like_missing_witness :
    newNFSVolume "v".data [("SERVER".data, []), (paramBaseDir, "b".data)] =
        newNFSVolume "v".data [(paramBaseDir, "b".data)] ∧
    newNFSVolume "v".data [("Base-Dir".data, [])] = newNFSVolume "v".data [] :=
  ⟨empty_param_value_like_missing.1 "v".data "SERVER".data
      [(paramBaseDir, "b".data)] (.inl (by decide)),
   empty_param_value_like_missing.2 "v".data "Base-Dir".data
      (.inr (by decide))⟩

/-! ## Lemmas about capability validation -/

/-- Per-descriptor validation fails exactly under the spec's conditions. -/
theorem validateVolumeCapability_error_iff (cs : ControllerServer)
    (c : Option VolumeCapability) :
    (∃ e, validateVolumeCapability cs c = .error e) ↔
      specCapabilityInvalid cs c := by
  cases c with
  | none =>
    simp [validateVolumeCapability, specCapabilityInvalid]
  | some cap =>
    cases hm : cap.accessMode with
    | none =>
      simp [validateVolumeCapability, specCapabilityInvalid, hm]
    | some am =>
      cases hsup : cs.driver.capSupported am.mode with
      | false =>
        constructor
        · intro _
          exact .inr ⟨cap, rfl, .inr (.inl ⟨am, hm, hsup⟩)⟩
        · intro _
          exact ⟨.unsupportedAccessMode am.mode,
            by simp [validateVolumeCapability, hm, hsup]⟩
      | true =>
        cases ht : cap.accessType with
        | none =>
          constructor
          · intro _
            exact .inr ⟨cap, rfl, .inr (.inr (.inl ht))⟩
          · intro _
            exact ⟨.accessTypeNotSet,
              by simp [validateVolumeCapability, hm, hsup, ht]⟩
        | some ty =>
          cases ty with
          | mount fs fl =>
            constructor
            · intro ⟨e, he⟩
              rw [show validateVolumeCapability cs (some cap) = .ok ()
                    from by simp [validateVolumeCapability, hm, hsup, ht]]
                at he
              cases he
            · intro hinv
              exfalso
              rcases hinv with h | ⟨cap', hcap', hbad⟩
              · cases h
              · injection hcap' with hcap'
                subst hcap'
                rcases hbad with h | ⟨am', ham', hsup'⟩ | h | ⟨ty', hty', hne⟩
                · rw [hm] at h; cases h
                · rw [hm] at ham'
                  injection ham' with ham'
                  subst ham'
                  rw [hsup] at hsup'; cases hsup'
                · rw [ht] at h; cases h
                · rw [ht] at hty'
                  injection hty' with hty'
                  exact hne fs fl hty'.symm
          | block =>
            constructor
            · intro _
              exact .inr ⟨cap, rfl,
                .inr (.inr (.inr ⟨.block, ht, fun fs fl h => by cases h⟩))⟩
            · intro _
              exact ⟨.nonMountAccessType,
                by simp [validateVolumeCapability, hm, hsup, ht]⟩

/-- The validation loop fails exactly when some element is invalid. -/
theorem validateEach_error_iff (cs : ControllerServer)
    (caps : List (Option VolumeCapability)) :
    (∃ e, validateEach cs caps = .error e) ↔
      ∃ c ∈ caps, specCapabilityInvalid cs c := by
  induction caps with
  | nil => simp [validateEach]
  | cons c rest ih =>
    cases hv : validateVolumeCapability cs c with
    | error e =>
      have hc : specCapabilityInvalid cs c :=
        (validateVolumeCapability_error_iff cs c).1 ⟨e, hv⟩
      simp only [validateEach, hv]
      constructor
      · intro _; exact ⟨c, List.mem_cons_self _ _, hc⟩
      · intro _; exact ⟨e, rfl⟩
    | ok u =>
      obtain rfl : u = () := rfl
      have hc : ¬ specCapabilityInvalid cs c := by
        intro h
        obtain ⟨e, he⟩ := (validateVolumeCapability_error_iff cs c).2 h
        rw [hv] at he; cases he
      simp only [validateEach, hv]
      rw [ih]
      constructor
      · intro ⟨d, hd, hbad⟩
        exact ⟨d, List.mem_cons_of_mem c hd, hbad⟩
      · intro ⟨d, hd, hbad⟩
        rcases List.mem_cons.1 hd with rfl | hd'
        · exact absurd hbad hc
        · exact ⟨d, hd', hbad⟩

/-! ## Claim C6 -/

/-- Claim C6: capability validation fails exactly when the list is empty or
some element is null, has an unset or unsupported access mode, or has an
unset or non-mount access type; CreateVolume surfaces such a failure as
InvalidArgument before any side effect.  The validation itself is a pure
function of the request and the static driver configuration. -/
theorem capability_validation_iff :
    (∀ (cs : ControllerServer) (caps : List (Option VolumeCapability)),
        (∃ e, validateVolumeCapabilities cs caps = .error e) ↔
          (caps = [] ∨ ∃ c ∈ caps, specCapabilityInvalid cs c)) ∧
    (∀ (cs : ControllerServer) (req : CreateVolumeRequest) (env : Env)
        (e : CapError),
        req.name ≠ [] →
        validateVolumeCapabilities cs req.volumeCapabilities = .error e →
        CreateVolume cs req env = (.error .invalidArgument, [])) := by
  constructor
  · intro cs caps
    by_cases h0 : caps = []
    · subst h0
      simp [validateVolumeCapabilities]
    · rw [validateVolumeCapabilities, if_neg h0]
      rw [validateEach_error_iff cs caps]
      constructor
      · intro h; exact .inr h
      · intro h
        rcases h with h | h
        · exact absurd h h0
        · exact h
  · intro cs req env e hname hcaps
    unfold CreateVolume
    rw [if_neg hname, hcaps]

/-- Witness for C6: the empty capability list is rejected and surfaces as
InvalidArgument from CreateVolume, at concrete inputs. -/
theorem capability_validation_iff_witness :
    CreateVolume ⟨⟨defaultDriverCap⟩, "/wd".data⟩
        ⟨"v".data, [], [(paramServer, "s".data)], 7⟩ ⟨true, true, true⟩ =
      (.error .invalidArgument, []) :=
  capability_validation_iff.2 ⟨⟨defaultDriverCap⟩, "/wd".data⟩
    ⟨"v".data, [], [(paramServer, "s".data)], 7⟩ ⟨true, true, true⟩
    .noCapabilities (by decide) (by rfl)

/-! ## Claim C10 -/

/-- Claim C10: for a mount-type access descriptor the validation outcome
never depends on the fsType string or the mount options, and whenever the
access mode is supported a mount-type capability is accepted outright. -/
theorem mount_capability_fstype_irrelevant :
    (∀ (cs : ControllerServer) (am : Option AccessMode)
        (fs1 fs2 : List Char) (fl1 fl2 : List (List Char)),
        validateVolumeCapability cs (some ⟨am, some (.mount fs1 fl1)⟩) =
          validateVolumeCapability cs (some ⟨am, some (.mount fs2 fl2)⟩)) ∧
    (∀ (cs : ControllerServer) (m : AccessModeEnum)
        (fs : List Char) (fl : List (List Char)),
        cs.driver.capSupported m = true →
        validateVolumeCapability cs (some ⟨some ⟨m⟩, some (.mount fs fl)⟩) =
          .ok ()) := by
  constructor
  · intro cs am fs1 fs2 fl1 fl2
    cases am with
    | none => rfl
    | some a =>
      cases hsup : cs.driver.capSupported a.mode <;>
        simp [validateVolumeCapability, hsup]
  · intro cs m fs fl h
    simp [validateVolumeCapability, h]

/-- Witness for C10 at a concrete supported mode and non-empty fsType. -/
theorem mount_capability_fstype_irrelevant_witness :
    validateVolumeCapability ⟨⟨defaultDriverCap⟩, "/wd".data⟩
        (some ⟨some ⟨.singleNodeWriter⟩,
               some (.mount "ext4".data ["ro".data])⟩) = .ok () :=
  mount_capability_fstype_irrelevant.2 ⟨⟨defaultDriverCap⟩, "/wd".data⟩
    .singleNodeWriter "ext4".data ["ro".data] (by decide)

/-! ## Lemmas about path cleaning and joining -/

theorem splitOnSlash_cons_slash (rest : List Char) :
    splitOnSlash ('/' :: rest) = [] :: splitOnSlash rest := by
  simp [splitOnSlash]

theorem cleanStep_plain (rooted : Bool) (acc : List (List Char))
    (c : List Char) (hc : plainSeg c) :
    cleanStep rooted acc c = c :: acc := by
  obtain ⟨h1, _, h2, h3⟩ := hc
  unfold cleanStep
  rw [if_neg (by simp [h1, h2]), if_neg h3]

theorem foldl_cleanStep_plain (rooted : Bool) (comps : List (List Char))
    (h : ∀ c ∈ comps, plainSeg c) :
    ∀ acc, comps.foldl (cleanStep rooted) acc = comps.reverse ++ acc := by
  induction comps with
  | nil => intro acc; simp
  | cons c cs ih =>
    intro acc
    rw [List.foldl_cons,
        cleanStep_plain rooted acc c (h c (List.mem_cons_self _ _)),
        ih (fun d hd => h d (List.mem_cons_of_mem _ hd)) (c :: acc)]
    simp

/-- Cleaning a rooted path whose components are all plain segments is the
identity. -/
theorem pathClean_rooted_plain (segs : List (List Char)) (h0 : segs ≠ [])
    (hs : ∀ c ∈ segs, plainSeg c) :
    pathClean ('/' :: joinSlash segs) = '/' :: joinSlash segs := by
  have hsp : splitOnSlash (joinSlash segs) = segs :=
    splitOnSlash_joinSlash segs h0 (fun c hc => (hs c hc).2.1)
  unfold pathClean
  rw [if_neg (by simp)]
  simp only [show isRooted ('/' :: joinSlash segs) = true from rfl,
    splitOnSlash_cons_slash, hsp, List.foldl_cons,
    show ∀ acc, cleanStep true acc [] = acc from fun acc => rfl,
    foldl_cleanStep_plain true segs hs, List.append_nil,
    List.reverse_reverse, if_true]
  rw [if_neg (by simp)]
  rfl

theorem joinSlash_append_singleton (ws : List (List Char)) (n : List Char)
    (h0 : ws ≠ []) :
    joinSlash (ws ++ [n]) = joinSlash ws ++ '/' :: n := by
  induction ws with
  | nil => exact absurd rfl h0
  | cons x xs ih =>
    cases xs with
    | nil => simp [joinSlash]
    | cons y ys =>
      simp only [List.cons_append]
      rw [joinSlash_cons_cons]
      rw [show y :: (ys ++ [n]) = (y :: ys) ++ [n] from rfl, ih (by simp)]
      rw [joinSlash_cons_cons]
      simp

/-- Reduction of `filepathJoin` when the first element is non-empty. -/
theorem filepathJoin_cons_ne (x : List Char) (xs : List (List Char))
    (hx : x ≠ []) :
    filepathJoin (x :: xs) = pathClean (joinSlash (x :: xs)) := by
  unfold filepathJoin
  cases x with
  | nil => exact absurd rfl hx
  | cons c cr => rfl

/-- Joining one more plain segment under a rooted plain path concatenates
literally. -/
theorem filepathJoin_under_rooted (ws : List (List Char)) (n : List Char)
    (h0 : ws ≠ []) (hws : ∀ c ∈ ws, plainSeg c) (hn : plainSeg n) :
    filepathJoin [('/' :: joinSlash ws), n] =
      ('/' :: joinSlash ws) ++ '/' :: n := by
  have happ : ∀ c ∈ ws ++ [n], plainSeg c := by
    intro c hc
    rcases List.mem_append.1 hc with h | h
    · exact hws c h
    · rw [List.mem_singleton.1 h]; exact hn
  rw [filepathJoin_cons_ne _ _ (by simp)]
  have hj : joinSlash [('/' :: joinSlash ws), n] =
      '/' :: joinSlash (ws ++ [n]) := by
    rw [joinSlash_cons_cons]
    simp only [joinSlash]
    rw [joinSlash_append_singleton ws n h0]
    rfl
  rw [hj, pathClean_rooted_plain (ws ++ [n]) (by simp) happ,
      joinSlash_append_singleton ws n h0]
  rfl

/-- Share path of a volume with plain baseDir and subDir. -/
theorem filepathJoin_share (b n : List Char) (hb : plainSeg b)
    (hn : plainSeg n) :
    filepathJoin [['/'], b, n] = '/' :: (b ++ '/' :: n) := by
  rw [filepathJoin_cons_ne ['/'] [b, n] (by simp)]
  have hj : joinSlash [['/'], b, n] = '/' :: ('/' :: (b ++ '/' :: n)) := by
    rw [joinSlash_cons_cons, joinSlash_cons_cons]
    simp [joinSlash]
  rw [hj]
  unfold pathClean
  rw [if_neg (by simp)]
  have hsplit : splitOnSlash ('/' :: ('/' :: (b ++ '/' :: n))) =
      [] :: [] :: [b, n] := by
    rw [splitOnSlash_cons_slash, splitOnSlash_cons_slash,
        splitOnSlash_append b n hb.2.1,
        splitOnSlash_no_slash n hn.2.1]
  simp only [show isRooted ('/' :: ('/' :: (b ++ '/' :: n))) = true from rfl,
    hsplit, List.foldl_cons,
    show ∀ acc, cleanStep true acc [] = acc from fun acc => rfl,
    foldl_cleanStep_plain true [b, n]
      (by intro c hc
          rcases List.mem_cons.1 hc with rfl | hc'
          · exact hb
          · rw [List.mem_singleton.1 hc']; exact hn),
    List.append_nil, List.reverse_reverse, if_true]
  rw [if_neg (by simp)]
  simp [joinSlash_cons_cons, joinSlash]

/-- Mounted share path under a plain baseDir. -/
theorem internalMountShare_plain (vol : NfsVolume)
    (hb : plainSeg vol.baseDir) :
    internalMountShare vol = '/' :: vol.baseDir := by
  unfold internalMountShare
  rw [filepathJoin_cons_ne ('/' :: vol.baseDir) [] (by simp)]
  rw [show joinSlash ['/' :: vol.baseDir] = '/' :: joinSlash [vol.baseDir]
        from rfl,
      pathClean_rooted_plain [vol.baseDir] (by simp) (by simpa using hb)]
  rfl

/-! ## Claim C7 -/

/-- Claim C7: a CreateVolume request with an empty name fails with
InvalidArgument before any side effect: the event trace is empty, so no
mount is attempted and no directory is created. -/
theorem createVolume_empty_name (cs : ControllerServer)
    (caps : List (Option VolumeCapability))
    (params : List (List Char × List Char)) (reqBytes : Int) (env : Env) :
    CreateVolume cs ⟨[], caps, params, reqBytes⟩ env =
      (.error .invalidArgument, []) := by
  unfold CreateVolume
  rw [if_pos rfl]

/-! ## Claim C4 -/

/-- Claim C4: DeleteVolume answers InvalidArgument exactly for the empty
identifier, and a non-empty identifier that fails to decode yields success
with an empty response and an empty event trace (no mount, no removal). -/
theorem deleteVolume_error_classification :
    (∀ (cs : ControllerServer) (volumeId : List Char) (env : Env),
        (DeleteVolume cs volumeId env).1 = .error .invalidArgument ↔
          volumeId = []) ∧
    (∀ (cs : ControllerServer) (volumeId : List Char) (env : Env),
        volumeId ≠ [] → getNfsVolFromId volumeId = none →
        DeleteVolume cs volumeId env = (.ok (), [])) := by
  have hmal : ∀ (cs : ControllerServer) (volumeId : List Char) (env : Env),
      volumeId ≠ [] → getNfsVolFromId volumeId = none →
      DeleteVolume cs volumeId env = (.ok (), []) := by
    intro cs id env h0 hdec
    unfold DeleteVolume
    rw [if_neg h0, hdec]
  refine ⟨?_, hmal⟩
  intro cs id env
  constructor
  · intro h
    by_contra h0
    unfold DeleteVolume at h
    rw [if_neg h0] at h
    cases hdec : getNfsVolFromId id with
    | none => rw [hdec] at h; cases h
    | some vol =>
      rw [hdec] at h
      cases hm : env.mountOk with
      | false => simp [hm] at h
      | true =>
        cases hr : env.removeOk with
        | false => simp [hm, hr] at h
        | true => simp [hm, hr] at h
  · intro h
    subst h
    unfold DeleteVolume
    rw [if_pos rfl]

/-- Witness for C4: a four-segment identifier is non-empty, fails to
decode, and DeleteVolume succeeds with no side effect. -/
theorem deleteVolume_error_classification_witness :
    DeleteVolume ⟨⟨defaultDriverCap⟩, "/wd".data⟩ "s/b/vol1/extra".data
        ⟨true, true, true⟩ = (.ok (), []) :=
  deleteVolume_error_classification.2 ⟨⟨defaultDriverCap⟩, "/wd".data⟩
    "s/b/vol1/extra".data ⟨true, true, true⟩ (by decide) (by decide)

/-! ## Claim C3 -/

/-- Claim C3: a CreateVolume request with non-empty name, valid
capabilities, and parameters giving server and base-dir, succeeds when the
mount and mkdir steps succeed; the response carries the id server/baseDir/
name, volume context server and share /baseDir/name, and the echoed
capacity; the subdirectory is created at workingMountDir/name/name (the
working directory is an absolute path of plain segments and name and
base-dir are plain path segments, as the identifier format requires). -/
theorem createVolume_success_shape
    (drv : NfsDriver) (ws : List (List Char)) (n s b : List Char)
    (caps : List (Option VolumeCapability)) (reqBytes : Int) (r : Bool)
    (hws0 : ws ≠ []) (hws : ∀ c ∈ ws, plainSeg c)
    (hn : plainSeg n) (hb : plainSeg b) (hs : s ≠ [])
    (hcaps : validateVolumeCapabilities ⟨drv, '/' :: joinSlash ws⟩ caps
      = .ok ()) :
    CreateVolume ⟨drv, '/' :: joinSlash ws⟩
        ⟨n, caps, [(paramServer, s), (paramBaseDir, b)], reqBytes⟩
        ⟨true, true, r⟩ =
      (.ok ⟨reqBytes, s ++ '/' :: (b ++ '/' :: n), s,
            '/' :: (b ++ '/' :: n)⟩,
       [Event.mountShare (('/' :: joinSlash ws) ++ '/' :: n) s ('/' :: b),
        Event.mkdirAt ((('/' :: joinSlash ws) ++ '/' :: n) ++ '/' :: n),
        Event.unmountAt (('/' :: joinSlash ws) ++ '/' :: n)]) := by
  have hvol : newNFSVolume n [(paramServer, s), (paramBaseDir, b)] =
      .ok ⟨s ++ '/' :: (b ++ '/' :: n), s, b, n⟩ := by
    unfold newNFSVolume
    have h1 : goToLower paramServer = paramServer := by decide
    have h2 : goToLower paramBaseDir = paramBaseDir := by decide
    have h3 : ¬ goToLower paramBaseDir = paramServer := by decide
    simp only [parseParams, if_pos h1, if_neg h3, if_pos h2]
    rw [if_neg hs, if_neg hb.1]
    simp [getVolumeIdFromNfsVol, joinSlash_cons_cons, joinSlash]
  have htarget : getInternalMountPath ⟨drv, '/' :: joinSlash ws⟩
      ⟨s ++ '/' :: (b ++ '/' :: n), s, b, n⟩ =
      ('/' :: joinSlash ws) ++ '/' :: n := by
    unfold getInternalMountPath
    exact filepathJoin_under_rooted ws n hws0 hws hn
  have hstep : ('/' :: joinSlash ws) ++ '/' :: n =
      '/' :: joinSlash (ws ++ [n]) := by
    rw [joinSlash_append_singleton ws n hws0]
    rfl
  have happ : ∀ c ∈ ws ++ [n], plainSeg c := by
    intro c hc
    rcases List.mem_append.1 hc with h | h
    · exact hws c h
    · rw [List.mem_singleton.1 h]; exact hn
  have hinternal : getInternalVolumePath ⟨drv, '/' :: joinSlash ws⟩
      ⟨s ++ '/' :: (b ++ '/' :: n), s, b, n⟩ =
      (('/' :: joinSlash ws) ++ '/' :: n) ++ '/' :: n := by
    unfold getInternalVolumePath
    rw [htarget, hstep,
        filepathJoin_under_rooted (ws ++ [n]) n (by simp) happ hn, ← hstep]
  have hshare : getVolumeSharePath
      ⟨s ++ '/' :: (b ++ '/' :: n), s, b, n⟩ = '/' :: (b ++ '/' :: n) :=
    filepathJoin_share b n hb hn
  have hmnt : internalMountShare
      ⟨s ++ '/' :: (b ++ '/' :: n), s, b, n⟩ = '/' :: b :=
    internalMountShare_plain _ hb
  unfold CreateVolume
  rw [if_neg hn.1]
  simp only [hcaps, hvol, htarget, hinternal, hshare, hmnt, nfsVolToCSI]
  simp

/-- Witness for C3 at concrete inputs. -/
theorem createVolume_success_shape_witness :
    CreateVolume ⟨⟨defaultDriverCap⟩, '/' :: joinSlash ["wd".data]⟩
        ⟨"vol1".data,
         [some ⟨some ⟨.multiNodeMultiWriter⟩, some (.mount [] [])⟩],
         [(paramServer, "srv".data), (paramBaseDir, "base".data)], 100⟩
        ⟨true, true, true⟩ =
      (.ok ⟨100, "srv".data ++ '/' :: ("base".data ++ '/' :: "vol1".data),
            "srv".data, '/' :: ("base".data ++ '/' :: "vol1".data)⟩,
       [Event.mountShare (('/' :: joinSlash ["wd".data]) ++ '/' :: "vol1".data)
          "srv".data ('/' :: "base".data),
        Event.mkdirAt ((('/' :: joinSlash ["wd".data]) ++ '/' :: "vol1".data)
          ++ '/' :: "vol1".data),
        Event.unmountAt (('/' :: joinSlash ["wd".data]) ++ '/' :: "vol1".data)]) :=
  createVolume_success_shape ⟨defaultDriverCap⟩ ["wd".data] "vol1".data
    "srv".data "base".data
    [some ⟨some ⟨.multiNodeMultiWriter⟩, some (.mount [] [])⟩] 100 true
    (by decide) (by decide) (by decide) (by decide) (by decide) (by rfl)

end CsiNfs
